import Mathlib

/-
Shallow embedding of `src/crypto_monitor.py` (class `CryptoTradingAgent`).

Modelling conventions:
- Python floats are modelled exactly: prices, thresholds and percentage
  changes as `ℚ`; the volatility value (which involves a square root,
  `variance ** 0.5`) as `ℝ`.
- Python dicts are modelled as association lists in insertion order;
  dict assignment keeps the position of an existing key and appends a
  new key at the end, and `dict.update` folds assignment over the
  overriding dict, exactly as CPython does.
- Timestamps (`datetime.now().isoformat()`) are modelled as an abstract
  `ℕ` value threaded into each cycle; their content is never branched on.
- The human-readable `reason` strings (f-strings with two-decimal
  formatting) are presentation-only and not part of any verified
  property, so the `Signal` record omits them; every other field of the
  Python signal dict is kept.
-/

namespace CryptoMonitor

/-! ## Configuration model (`load_config`, lines 33-63)

The configuration file is an untyped JSON object; we model JSON values
(`JVal`) and the exact CPython `dict.update` merge that line 59 performs. -/

/-- JSON-like values, as produced by `json.load` for the config file. -/
inductive JVal where
  | num (q : ℚ)
  | str (s : String)
  | bool (b : Bool)
  | obj (fields : List (String × JVal))

/-- CPython dict assignment `d[k] = v`: an existing key keeps its
position and gets the new value; an absent key is appended at the end.
(Dict keys are unique, so replacing the first occurrence is exact.) -/
def dictSet : List (String × JVal) → String → JVal → List (String × JVal)
  | [], k, v => [(k, v)]
  | p :: l, k, v => if p.1 = k then (k, v) :: l else p :: dictSet l k v

/-- CPython `d.update(e)`: assign every key/value pair of `e` into `d`,
in `e`'s iteration order.  This is the shallow merge of line 59. -/
def dictUpdate (d e : List (String × JVal)) : List (String × JVal) :=
  e.foldl (fun acc p => dictSet acc p.1 p.2) d

/-- The `default_config` dict of lines 35-52. -/
def default_config : List (String × JVal) :=
  [("coins", JVal.obj
      [("bitcoin", JVal.str "BTC"), ("ethereum", JVal.str "ETH"),
       ("solana", JVal.str "SOL"), ("cardano", JVal.str "ADA"),
       ("polkadot", JVal.str "DOT")]),
   ("thresholds", JVal.obj
      [("drop_alert", JVal.num (-5)), ("surge_alert", JVal.num 10),
       ("volatility_window", JVal.num 24)]),
   ("check_interval", JVal.num 300),
   ("enable_surge_alerts", JVal.bool true),
   ("enable_volatility_tracking", JVal.bool true),
   ("max_history_length", JVal.num 288)]

/-- Model of `load_config` (lines 33-63).  `none` models a missing config file or
a malformed one (the `except` path of lines 60-61); otherwise the loaded
dict is merged over the defaults by `default_config.update(loaded_config)`
(line 59), a shallow `dict.update`. -/
def load_config : Option (List (String × JVal)) → List (String × JVal)
  | none => default_config
  | some file => dictUpdate default_config file

/-- Convenience accessor: the sub-field `k` of the nested `thresholds`
object of a configuration dict (`config['thresholds'][k]`). -/
def thresholdField (c : List (String × JVal)) (k : String) : Option JVal :=
  match List.lookup "thresholds" c with
  | some (JVal.obj t) => List.lookup k t
  | _ => none

/-! ## Typed configuration view

`generate_trading_signals` and the cycle loop read a fixed set of config
entries (`config['thresholds']['drop_alert']`, `config['thresholds']['surge_alert']`,
`config['enable_surge_alerts']`, `config['enable_volatility_tracking']`,
`config['max_history_length']`, `config['check_interval']`); this record is
the typed view of those entries. -/

structure Config where
  drop_alert : ℚ
  surge_alert : ℚ
  enable_surge_alerts : Bool
  enable_volatility_tracking : Bool
  max_history_length : ℕ
  check_interval : ℕ

/-- The documented default thresholds and switches (lines 35-52). -/
def defaultConfigR : Config :=
  { drop_alert := -5, surge_alert := 10, enable_surge_alerts := true,
    enable_volatility_tracking := true, max_history_length := 288,
    check_interval := 300 }

/-! ## Price history (`update_price_history`, lines 111-127) -/

/-- One stored observation `{'price': price, 'timestamp': timestamp}`
(lines 119-122). -/
structure Obs where
  price : ℚ
  timestamp : ℕ
  deriving DecidableEq, Repr

/-- The Python slice `l[-k:]` (line 127).  For `k = 0` the slice is
`l[0:]`, i.e. the whole list (CPython: `-0 == 0`); otherwise it is the
last `k` elements. -/
def pySliceLast {α : Type} (k : ℕ) (l : List α) : List α :=
  if k = 0 then l else l.drop (l.length - k)

/-- Recording one observation into one ticker's history (lines 119-127):
append, then, if the length exceeds `max_len`, keep `hist[-max_len:]`. -/
def recordOne (max_len : ℕ) (hist : List Obs) (price : ℚ) (now : ℕ) : List Obs :=
  let h := hist ++ [⟨price, now⟩]
  if max_len < h.length then pySliceLast max_len h else h

/-- Python dict assignment for an arbitrary value type (same semantics
as `dictSet`). -/
def assocSet {α : Type} : List (String × α) → String → α → List (String × α)
  | [], k, v => [(k, v)]
  | p :: l, k, v => if p.1 = k then (k, v) :: l else p :: assocSet l k v

/-- Model of `update_price_history` (lines 111-127): for every fetched
`(ticker, price)` pair, record the observation into that ticker's
history (creating it if absent — `(List.lookup …).getD []`). -/
def update_price_history (max_len : ℕ) (ph : List (String × List Obs))
    (current : List (String × ℚ)) (now : ℕ) : List (String × List Obs) :=
  current.foldl
    (fun acc p => assocSet acc p.1 (recordOne max_len ((List.lookup p.1 acc).getD []) p.2 now))
    ph

/-- The per-ticker trace of `update_price_history`: the history obtained
by recording a whole sequence of `(price, timestamp)` observations for
one ticker, starting from the empty history. -/
def recordAll (max_len : ℕ) (inputs : List (ℚ × ℕ)) : List Obs :=
  inputs.foldl (fun h p => recordOne max_len h p.1 p.2) []

/-- The observation built from a `(price, timestamp)` pair. -/
def mkObs (p : ℚ × ℕ) : Obs := ⟨p.1, p.2⟩

/-! ## Statistics (`calculate_percentage_change` lines 105-109,
`calculate_volatility` lines 129-144) -/

/-- Model of `calculate_percentage_change` (lines 105-109). -/
def calculate_percentage_change (old_price new_price : ℚ) : ℚ :=
  if old_price = 0 then 0 else ((new_price - old_price) / old_price) * 100

/-- The `prices` list of line 134: the stored prices of a history. -/
def pricesOf (hist : List Obs) : List ℚ := hist.map (fun e => e.price)

/-- The `avg_price` of line 135: arithmetic mean of the stored prices. -/
def avg_price (hist : List Obs) : ℚ :=
  (pricesOf hist).sum / ((pricesOf hist).length : ℚ)

/-- The `variance` of line 140: population variance (sum of squared
deviations divided by the count, not count − 1). -/
def variance (hist : List Obs) : ℚ :=
  ((pricesOf hist).map (fun p => (p - avg_price hist) ^ 2)).sum / ((pricesOf hist).length : ℚ)

/-- Model of `calculate_volatility` (lines 129-144), as a function of the
ticker's stored history (the caller passes `[]` for an unseen ticker,
which the `length < 2` guard sends to `0`, exactly like the
`ticker not in self.state['price_history']` test of line 131).
`variance ** 0.5` is the real square root of the (nonnegative)
variance. -/
noncomputable def calculate_volatility (hist : List Obs) : ℝ :=
  if hist.length < 2 then 0
  else if avg_price hist = 0 then 0
  else (Real.sqrt ((variance hist : ℚ) : ℝ) / ((avg_price hist : ℚ) : ℝ)) * 100

/-! ## Signals (`generate_trading_signals`, lines 146-209) -/

inductive SignalType where
  | SELL_SIGNAL
  | BUY_SIGNAL
  | VOLATILITY_ALERT
  deriving DecidableEq, Repr

inductive Strength where
  | STRONG
  | MODERATE
  | WARNING
  deriving DecidableEq, Repr

/-- The signal dict of lines 164-202 (the presentation-only `reason`
and `timestamp` strings aside). -/
structure Signal where
  type : SignalType
  coin : String
  old_price : ℚ
  new_price : ℚ
  change : ℚ
  volatility : ℝ
  strength : Strength

/-- The per-asset classification of lines 157-202: compute the change,
then run the strict `if` / `elif` / `elif` priority chain
(drop, then surge, then volatility), producing at most one signal. -/
noncomputable def classifySignal (cfg : Config) (ticker : String)
    (old_price new_price : ℚ) (volatility : ℝ) : Option Signal :=
  let change := calculate_percentage_change old_price new_price
  if change ≤ cfg.drop_alert then
    some { type := SignalType.SELL_SIGNAL, coin := ticker, old_price := old_price,
           new_price := new_price, change := change, volatility := volatility,
           strength := if change ≤ -10 then Strength.STRONG else Strength.MODERATE }
  else if cfg.enable_surge_alerts = true ∧ cfg.surge_alert ≤ change then
    some { type := SignalType.BUY_SIGNAL, coin := ticker, old_price := old_price,
           new_price := new_price, change := change, volatility := volatility,
           strength := if 20 ≤ change then Strength.STRONG else Strength.MODERATE }
  else if cfg.enable_volatility_tracking = true ∧ 15 < volatility then
    some { type := SignalType.VOLATILITY_ALERT, coin := ticker, old_price := old_price,
           new_price := new_price, change := change, volatility := volatility,
           strength := Strength.WARNING }
  else none

/-! ## Agent state (`self.state`, lines 24-31) -/

@[ext]
structure AgentState where
  previous_prices : List (String × ℚ)
  price_history : List (String × List Obs)
  signals_generated : List Signal
  total_alerts : ℕ
  last_check : Option ℕ
  agent_start_time : ℕ

/-- The body of the per-ticker loop of lines 153-158: look up the
previous price (skipping tickers without one, line 154), then classify
with the change and the volatility of the ticker's stored history. -/
noncomputable def emitFor (cfg : Config) (st : AgentState) (p : String × ℚ) :
    Option Signal :=
  match List.lookup p.1 st.previous_prices with
  | none => none
  | some old_price =>
      classifySignal cfg p.1 old_price p.2
        (calculate_volatility ((List.lookup p.1 st.price_history).getD []))

/-- One iteration of the loop of lines 153-207 over the accumulated
`(returned signals, state)` pair: if a signal is produced it is
appended to the return list and to `state['signals_generated']`, and
`state['total_alerts']` is incremented (lines 204-207). -/
noncomputable def gtsStep (cfg : Config) (st : AgentState)
    (acc : List Signal × AgentState) (p : String × ℚ) : List Signal × AgentState :=
  match emitFor cfg st p with
  | none => acc
  | some sig =>
      (acc.1 ++ [sig],
       { acc.2 with
           signals_generated := acc.2.signals_generated ++ [sig],
           total_alerts := acc.2.total_alerts + 1 })

/-- Model of `generate_trading_signals` (lines 146-209): the early return for an
empty `previous_prices` (lines 150-151), then the per-ticker loop. -/
noncomputable def generateTradingSignals (cfg : Config) (st : AgentState)
    (current : List (String × ℚ)) : List Signal × AgentState :=
  if st.previous_prices = [] then ([], st)
  else current.foldl (gtsStep cfg st) ([], st)

/-- The list of signals one call to `generate_trading_signals` emits. -/
noncomputable def emitted (cfg : Config) (st : AgentState)
    (current : List (String × ℚ)) : List Signal :=
  if st.previous_prices = [] then [] else current.filterMap (emitFor cfg st)

/-! ## One evaluation cycle (`run_agent` loop body, lines 286-316) -/

/-- One iteration of the `while True` loop of lines 286-316, as a state
transformer.  `fetched = none` models a failed `get_current_prices`
(which returns `None` on any exception, lines 101-103); an empty fetched
dict is falsy in Python, so `if current_prices:` (line 290) also skips
the cycle then.  On a successful fetch: update the history, generate
signals, replace `previous_prices` wholesale with a copy of the fetched
map (line 305) and advance `last_check` (line 306).  Display and
persistence are presentation/IO collaborators with no effect on the
state. -/
noncomputable def runCycle (cfg : Config) (st : AgentState)
    (fetched : Option (List (String × ℚ))) (now : ℕ) : AgentState :=
  match fetched with
  | none => st
  | some current =>
      if current = [] then st
      else
        let st1 := { st with
          price_history := update_price_history cfg.max_history_length st.price_history current now }
        let out := generateTradingSignals cfg st1 current
        { out.2 with previous_prices := current, last_check := some now }

/-! ## Verified properties -/

/-- Claim C7: `calculate_percentage_change(old, new)` returns 0 whenever
`old == 0` (guarded division, not an error), and otherwise returns
`((new - old) / old) * 100`; in particular, for all `old > 0`,
`calculate_percentage_change(old, old) == 0`. -/
theorem percentage_change_spec (old_price new_price : ℚ) :
    (old_price = 0 → calculate_percentage_change old_price new_price = 0) ∧
    (old_price ≠ 0 →
      calculate_percentage_change old_price new_price
        = ((new_price - old_price) / old_price) * 100) ∧
    (0 < old_price → calculate_percentage_change old_price old_price = 0) := by
  refine ⟨fun h => ?_, fun h => ?_, fun h => ?_⟩
  · simp [calculate_percentage_change, h]
  · simp [calculate_percentage_change, h]
  · simp [calculate_percentage_change, h.ne']

/-- Witness for C7 at concrete inputs: a zero baseline gives 0, and an
unchanged positive price gives 0. -/
theorem percentage_change_spec_witness :
    calculate_percentage_change 0 9 = 0 ∧ calculate_percentage_change 5 5 = 0 :=
  ⟨(percentage_change_spec 0 9).1 rfl, (percentage_change_spec 5 5).2.2 (by norm_num)⟩

/-- Claim C6: when the price fetch fails for a cycle, that cycle is
skipped atomically: `previous_prices`, `price_history`,
`signals_generated` and `total_alerts` are all unchanged from before the
cycle and `last_check` is not advanced (the whole state is unchanged, so
the loop proceeds to the next tick from the same state). -/
theorem fetch_failure_skips_cycle (cfg : Config) (st : AgentState) (now : ℕ) :
    runCycle cfg st none now = st ∧
    (runCycle cfg st none now).previous_prices = st.previous_prices ∧
    (runCycle cfg st none now).price_history = st.price_history ∧
    (runCycle cfg st none now).signals_generated = st.signals_generated ∧
    (runCycle cfg st none now).total_alerts = st.total_alerts ∧
    (runCycle cfg st none now).last_check = st.last_check :=
  ⟨rfl, rfl, rfl, rfl, rfl, rfl⟩

/-- Claim C1: the signal classification is a strict priority chain
producing at most one signal per asset per cycle (an `Option Signal`):
a drop at or below `drop_alert` yields the Sell signal (Strong iff
`change ≤ -10`, else Moderate) regardless of volatility — so a
simultaneous drop and high volatility yields only the Sell signal;
otherwise, if surge alerts are enabled and `change ≥ surge_alert`, the
Buy signal (Strong iff `change ≥ 20`); otherwise, if volatility tracking
is enabled and `volatility > 15`, the VolatilityWarning with strength
Warning; otherwise no signal. -/
theorem signal_priority_chain (cfg : Config) (ticker : String)
    (old_price new_price : ℚ) (volatility : ℝ) (change : ℚ)
    (hch : change = calculate_percentage_change old_price new_price) :
    (change ≤ cfg.drop_alert →
      classifySignal cfg ticker old_price new_price volatility =
        some { type := SignalType.SELL_SIGNAL, coin := ticker, old_price := old_price,
               new_price := new_price, change := change, volatility := volatility,
               strength := if change ≤ -10 then Strength.STRONG else Strength.MODERATE }) ∧
    (cfg.drop_alert < change → cfg.enable_surge_alerts = true → cfg.surge_alert ≤ change →
      classifySignal cfg ticker old_price new_price volatility =
        some { type := SignalType.BUY_SIGNAL, coin := ticker, old_price := old_price,
               new_price := new_price, change := change, volatility := volatility,
               strength := if 20 ≤ change then Strength.STRONG else Strength.MODERATE }) ∧
    (cfg.drop_alert < change → (cfg.enable_surge_alerts = true → change < cfg.surge_alert) →
      cfg.enable_volatility_tracking = true → 15 < volatility →
      classifySignal cfg ticker old_price new_price volatility =
        some { type := SignalType.VOLATILITY_ALERT, coin := ticker, old_price := old_price,
               new_price := new_price, change := change, volatility := volatility,
               strength := Strength.WARNING }) ∧
    (cfg.drop_alert < change → (cfg.enable_surge_alerts = true → change < cfg.surge_alert) →
      (cfg.enable_volatility_tracking = true → volatility ≤ 15) →
      classifySignal cfg ticker old_price new_price volatility = none) := by
  subst hch
  refine ⟨fun h1 => ?_, fun h1 h2 h3 => ?_, fun h1 h2 h3 h4 => ?_, fun h1 h2 h3 => ?_⟩
  · simp only [classifySignal]
    rw [if_pos h1]
  · simp only [classifySignal]
    rw [if_neg (not_le.mpr h1), if_pos ⟨h2, h3⟩]
  · simp only [classifySignal]
    rw [if_neg (not_le.mpr h1),
        if_neg (fun hc => absurd hc.2 (not_le.mpr (h2 hc.1))),
        if_pos ⟨h3, h4⟩]
  · simp only [classifySignal]
    rw [if_neg (not_le.mpr h1),
        if_neg (fun hc => absurd hc.2 (not_le.mpr (h2 hc.1))),
        if_neg (fun hc => absurd hc.2 (not_lt.mpr (h3 hc.1)))]

/-- Witness for C1: with the default thresholds, a drop from 100 to 94
(change −6 %, between −10 and −5) yields exactly the Moderate Sell
signal. -/
theorem signal_priority_chain_witness :
    classifySignal defaultConfigR "BTC" 100 94 0 =
      some { type := SignalType.SELL_SIGNAL, coin := "BTC", old_price := 100,
             new_price := 94, change := -6, volatility := 0,
             strength := Strength.MODERATE } := by
  have h := (signal_priority_chain defaultConfigR "BTC" 100 94 0 (-6)
      (by norm_num [calculate_percentage_change])).1 (by norm_num [defaultConfigR])
  rw [if_neg (by norm_num : ¬ ((-6 : ℚ) ≤ -10))] at h
  exact h

/-- Claim C4: `calculate_volatility` returns 0 for fewer than 2 stored
observations or a zero mean; otherwise it returns
`sqrt(population variance) / mean * 100`, where `variance` divides the
sum of squared deviations by the count; consequently any constant
nonzero history of length ≥ 2 has volatility 0. -/
theorem volatility_spec (hist : List Obs) (c : ℚ) :
    (hist.length < 2 → calculate_volatility hist = 0) ∧
    (avg_price hist = 0 → calculate_volatility hist = 0) ∧
    (2 ≤ hist.length → avg_price hist ≠ 0 →
      calculate_volatility hist
        = (Real.sqrt ((variance hist : ℚ) : ℝ) / ((avg_price hist : ℚ) : ℝ)) * 100) ∧
    (2 ≤ hist.length → c ≠ 0 → (∀ e ∈ hist, e.price = c) →
      calculate_volatility hist = 0) := by
  have base : ∀ h1 : ¬ hist.length < 2, ∀ h2 : avg_price hist ≠ 0,
      calculate_volatility hist
        = (Real.sqrt ((variance hist : ℚ) : ℝ) / ((avg_price hist : ℚ) : ℝ)) * 100 := by
    intro h1 h2
    simp only [calculate_volatility]
    rw [if_neg h1, if_neg h2]
  refine ⟨fun h => ?_, fun h => ?_, fun h1 h2 => base (not_lt.mpr h1) h2, fun h1 h2 h3 => ?_⟩
  · simp [calculate_volatility, h]
  · simp [calculate_volatility, h]
  · have hp : pricesOf hist = List.replicate (pricesOf hist).length c :=
      List.eq_replicate_of_mem (fun b hb => by
        simp only [pricesOf, List.mem_map] at hb
        rcases hb with ⟨e, he, rfl⟩
        exact h3 e he)
    have hn : ((pricesOf hist).length : ℚ) ≠ 0 := by
      have : (pricesOf hist).length = hist.length := by simp [pricesOf]
      rw [this]
      exact Nat.cast_ne_zero.mpr (by omega)
    have hsum : (pricesOf hist).sum = ((pricesOf hist).length : ℚ) * c := by
      rw [hp]
      simp [List.sum_replicate, nsmul_eq_mul]
    have havg : avg_price hist = c := by
      rw [avg_price, hsum]
      exact mul_div_cancel_left₀ c hn
    have hvar : variance hist = 0 := by
      rw [variance, havg]
      have hz : ((pricesOf hist).map (fun p => (p - c) ^ 2)).sum = 0 :=
        List.sum_eq_zero (fun q hq => by
          rcases List.mem_map.mp hq with ⟨p, hp2, rfl⟩
          simp only [pricesOf, List.mem_map] at hp2
          rcases hp2 with ⟨e, he, rfl⟩
          rw [h3 e he]
          ring)
      rw [hz, zero_div]
    have hne : avg_price hist ≠ 0 := by rw [havg]; exact h2
    rw [base (not_lt.mpr h1) hne, hvar]
    simp

/-- Witness for C4: a constant nonzero two-entry history has volatility
exactly 0. -/
theorem volatility_spec_witness :
    calculate_volatility [⟨5, 0⟩, ⟨5, 1⟩] = 0 :=
  (volatility_spec [⟨5, 0⟩, ⟨5, 1⟩] 5).2.2.2 (by decide) (by decide) (by decide)

/-- Claim C10: for a history of nonnegative prices,
`calculate_volatility` is nonnegative (so the comparison against the 15
threshold is well-defined for feed-supplied prices). -/
theorem volatility_nonneg (hist : List Obs) (h : ∀ e ∈ hist, 0 ≤ e.price) :
    0 ≤ calculate_volatility hist := by
  simp only [calculate_volatility]
  split_ifs with h1 h2
  · exact le_refl 0
  · exact le_refl 0
  · have havg : 0 ≤ avg_price hist := by
      rw [avg_price]
      apply div_nonneg
      · apply List.sum_nonneg
        intro q hq
        simp only [pricesOf, List.mem_map] at hq
        rcases hq with ⟨e, he, rfl⟩
        exact h e he
      · exact Nat.cast_nonneg _
    have hpos : (0 : ℝ) < ((avg_price hist : ℚ) : ℝ) := by
      exact_mod_cast lt_of_le_of_ne havg (Ne.symm h2)
    apply mul_nonneg
    · exact div_nonneg (Real.sqrt_nonneg _) (le_of_lt hpos)
    · norm_num

/-- Witness for C10: a concrete nonnegative history has nonnegative
volatility. -/
theorem volatility_nonneg_witness :
    0 ≤ calculate_volatility [⟨1, 0⟩, ⟨3, 1⟩] :=
  volatility_nonneg [⟨1, 0⟩, ⟨3, 1⟩] (by decide)

/-! ### Characterization of the signal loop -/

/-- The signal loop is a fold whose effect on the accumulator is fully
described by the list of emitted signals: they are appended to the
returned list and to the log, and counted into `total_alerts`. -/
lemma foldl_gtsStep (cfg : Config) (st : AgentState) (l : List (String × ℚ)) :
    ∀ (sigs0 : List Signal) (st0 : AgentState),
      l.foldl (gtsStep cfg st) (sigs0, st0) =
        (sigs0 ++ l.filterMap (emitFor cfg st),
         { st0 with
             signals_generated := st0.signals_generated ++ l.filterMap (emitFor cfg st),
             total_alerts := st0.total_alerts + (l.filterMap (emitFor cfg st)).length }) := by
  induction l with
  | nil =>
      intro sigs0 st0
      simp
  | cons p l ih =>
      intro sigs0 st0
      rw [List.foldl_cons, List.filterMap_cons]
      cases h : emitFor cfg st p with
      | none =>
          simp only [gtsStep, h]
          exact ih sigs0 st0
      | some sig =>
          simp only [gtsStep, h]
          rw [ih]
          simp [List.append_assoc]
          omega

/-- The call `generate_trading_signals` returns exactly the emitted signals and
the state with those signals appended to the log and counted. -/
lemma generateTradingSignals_spec (cfg : Config) (st : AgentState)
    (current : List (String × ℚ)) :
    generateTradingSignals cfg st current =
      (emitted cfg st current,
       { st with
           signals_generated := st.signals_generated ++ emitted cfg st current,
           total_alerts := st.total_alerts + (emitted cfg st current).length }) := by
  by_cases h : st.previous_prices = []
  · simp only [generateTradingSignals, emitted, if_pos h]
    simp
  · simp only [generateTradingSignals, emitted, if_neg h]
    exact foldl_gtsStep cfg st current [] st

/-- Claim C9: every call to `generate_trading_signals` extends
`signals_generated` by exactly the signals it returns, in order, leaving
the previously logged signals unchanged (append-only), and increments
`total_alerts` by exactly the number of signals returned. -/
theorem signals_append_only (cfg : Config) (st : AgentState)
    (current : List (String × ℚ)) :
    (generateTradingSignals cfg st current).2.signals_generated
      = st.signals_generated ++ (generateTradingSignals cfg st current).1 ∧
    (generateTradingSignals cfg st current).2.total_alerts
      = st.total_alerts + (generateTradingSignals cfg st current).1.length := by
  rw [generateTradingSignals_spec]
  exact ⟨rfl, rfl⟩

/-- Every signal the classifier produces carries the classified ticker. -/
lemma classifySignal_coin (cfg : Config) (t : String) (old_price new_price : ℚ)
    (vol : ℝ) (sig : Signal)
    (h : classifySignal cfg t old_price new_price vol = some sig) : sig.coin = t := by
  simp only [classifySignal] at h
  split_ifs at h
  all_goals
    first
      | exact Option.noConfusion h
      | (injection h with h2; rw [← h2])

/-- A signal is only emitted for a ticker that has a previous price, and
it carries that ticker. -/
lemma emitFor_some (cfg : Config) (st : AgentState) (p : String × ℚ) (sig : Signal)
    (h : emitFor cfg st p = some sig) :
    sig.coin = p.1 ∧ List.lookup p.1 st.previous_prices ≠ none := by
  cases hl : List.lookup p.1 st.previous_prices with
  | none =>
      simp only [emitFor, hl] at h
      exact Option.noConfusion h
  | some old =>
      simp only [emitFor, hl] at h
      exact ⟨classifySignal_coin _ _ _ _ _ _ h, fun hc => Option.noConfusion hc⟩

/-- Claim C8: no signal is ever emitted for an asset with no entry in
`previous_prices` at classification time, regardless of its price: the
returned list carries no signal for that ticker, and the logged signals
for that ticker are unchanged. -/
theorem no_signal_first_observation (cfg : Config) (st : AgentState)
    (current : List (String × ℚ)) (t : String)
    (h : List.lookup t st.previous_prices = none) :
    (generateTradingSignals cfg st current).1.filter (fun s => s.coin == t) = [] ∧
    (generateTradingSignals cfg st current).2.signals_generated.filter (fun s => s.coin == t)
      = st.signals_generated.filter (fun s => s.coin == t) := by
  have hforall : ∀ s ∈ emitted cfg st current, ¬ (s.coin == t) = true := by
    intro s hs
    unfold emitted at hs
    by_cases hp : st.previous_prices = []
    · rw [if_pos hp] at hs
      exact absurd hs (List.not_mem_nil s)
    · rw [if_neg hp] at hs
      rcases List.mem_filterMap.mp hs with ⟨p, hpmem, hemit⟩
      rcases emitFor_some cfg st p s hemit with ⟨hcoin, hlook⟩
      intro hbeq
      have hst : s.coin = t := by simpa using hbeq
      have hpt : p.1 = t := by rw [← hcoin, hst]
      exact hlook (by rw [hpt]; exact h)
  have hfil : (emitted cfg st current).filter (fun s => s.coin == t) = [] :=
    List.filter_eq_nil_iff.mpr hforall
  constructor
  · rw [generateTradingSignals_spec]
    exact hfil
  · rw [generateTradingSignals_spec]
    show (st.signals_generated ++ emitted cfg st current).filter _ = _
    rw [List.filter_append, hfil, List.append_nil]

/-- A state whose only previous price is for `"ETH"`. -/
def stFirstObs : AgentState :=
  { previous_prices := [("ETH", 100)], price_history := [], signals_generated := [],
    total_alerts := 0, last_check := none, agent_start_time := 0 }

/-- Witness for C8: a first-cycle ticker (`"BTC"`, no previous price)
gets no signal even at an arbitrary price. -/
theorem no_signal_first_observation_witness :
    (generateTradingSignals defaultConfigR stFirstObs [("BTC", 50)]).1.filter
        (fun s => s.coin == "BTC") = [] ∧
    (generateTradingSignals defaultConfigR stFirstObs [("BTC", 50)]).2.signals_generated.filter
        (fun s => s.coin == "BTC")
      = stFirstObs.signals_generated.filter (fun s => s.coin == "BTC") :=
  no_signal_first_observation defaultConfigR stFirstObs [("BTC", 50)] "BTC" (by decide)

/-! ### The successful-cycle shape and `previous_prices` -/

/-- A successful cycle with a nonempty fetched map: history update, then
signal generation, then the wholesale `previous_prices` replacement and
`last_check` advance. -/
lemma runCycle_some (cfg : Config) (st : AgentState) (current : List (String × ℚ))
    (now : ℕ) (h : ¬ current = []) :
    runCycle cfg st (some current) now =
      { (generateTradingSignals cfg
           { st with price_history :=
               update_price_history cfg.max_history_length st.price_history current now }
           current).2 with
        previous_prices := current, last_check := some now } := by
  simp only [runCycle]
  rw [if_neg h]

/-- A state whose only previous price is for `"BTC"`. -/
def stBTC : AgentState :=
  { previous_prices := [("BTC", 100)], price_history := [], signals_generated := [],
    total_alerts := 0, last_check := none, agent_start_time := 0 }

/-- Counterexample to C3 as stated: a ticker (`"BTC"`) present in
`previous_prices` but absent from the cycle's fetched map loses its
previous-price entry — `previous_prices = current_prices.copy()`
(line 305) deletes it rather than retaining it. -/
theorem previous_prices_not_retained :
    List.lookup "BTC" stBTC.previous_prices = some 100 ∧
    List.lookup "BTC"
        (runCycle defaultConfigR stBTC (some [("ETH", 50)]) 7).previous_prices = none := by
  constructor
  · rfl
  · rw [runCycle_some defaultConfigR stBTC [("ETH", 50)] 7 (by decide)]
    rfl

/-- Amended C3: at the end of every successful evaluation cycle (a
nonempty fetched map), `previous_prices` is replaced wholesale with the
fetched price map; tickers absent from the fetched map therefore lose
their old previous-price entries. -/
theorem previous_prices_replaced_wholesale (cfg : Config) (st : AgentState)
    (current : List (String × ℚ)) (now : ℕ) (h : ¬ current = []) :
    (runCycle cfg st (some current) now).previous_prices = current := by
  rw [runCycle_some cfg st current now h]

/-- Witness for amended C3: after a concrete successful cycle the
previous-price map is exactly the fetched map. -/
theorem previous_prices_replaced_wholesale_witness :
    (runCycle defaultConfigR stBTC (some [("ETH", 50)]) 7).previous_prices = [("ETH", 50)] :=
  previous_prices_replaced_wholesale defaultConfigR stBTC [("ETH", 50)] 7 (by decide)

/-! ### History trimming (C5) -/

/-- Recording distributes over appending one input to the trace. -/
lemma recordAll_append (max_len : ℕ) (ys : List (ℚ × ℕ)) (y : ℚ × ℕ) :
    recordAll max_len (ys ++ [y]) = recordOne max_len (recordAll max_len ys) y.1 y.2 := by
  simp [recordAll, List.foldl_append]

/-- The FIFO step: with a cap of at least 1, recording one more
observation into the last-`max_len` window of `M` gives the
last-`max_len` window of `M ++ [w]`. -/
lemma recordOne_fifo (max_len : ℕ) (hmax : 1 ≤ max_len) (M : List Obs) (p : ℚ) (ts : ℕ) :
    recordOne max_len (M.drop (M.length - max_len)) p ts
      = (M ++ [(⟨p, ts⟩ : Obs)]).drop (M.length + 1 - max_len) := by
  by_cases hcap : max_len ≤ M.length
  · simp only [recordOne]
    rw [if_pos (by rw [List.length_append, List.length_drop]; simp; omega)]
    simp only [pySliceLast]
    rw [if_neg (by omega)]
    have e1 : (M.drop (M.length - max_len) ++ [(⟨p, ts⟩ : Obs)]).length - max_len = 1 := by
      rw [List.length_append, List.length_drop]
      simp
      omega
    rw [e1,
        List.drop_append_of_le_length (by rw [List.length_drop]; omega),
        List.drop_drop,
        List.drop_append_of_le_length (by omega : M.length + 1 - max_len ≤ M.length)]
    have e2 : M.length - max_len + 1 = M.length + 1 - max_len := by omega
    rw [e2]
  · have h0 : M.length - max_len = 0 := by omega
    rw [h0, List.drop_zero]
    simp only [recordOne]
    rw [if_neg (by rw [List.length_append]; simp; omega)]
    have e3 : M.length + 1 - max_len = 0 := by omega
    rw [e3, List.drop_zero]

/-- With a cap of at least 1, the retained history after any trace of
recorded observations is exactly the last `max_len` inserted
observations, in insertion order. -/
lemma recordAll_eq_drop (max_len : ℕ) (hmax : 1 ≤ max_len) (inputs : List (ℚ × ℕ)) :
    recordAll max_len inputs = (inputs.map mkObs).drop (inputs.length - max_len) := by
  induction inputs using List.reverseRecOn with
  | nil => simp [recordAll]
  | append_singleton ys y ih =>
      rw [recordAll_append, ih]
      have hstep := recordOne_fifo max_len hmax (ys.map mkObs) y.1 y.2
      rw [List.length_map] at hstep
      rw [hstep]
      simp [mkObs, List.map_append]

/-- Amended C5: provided `max_history_length ≥ 1`, the stored price
history never exceeds `max_history_length` entries after any update, and
eviction is strictly FIFO: after `n > max_history_length` total
insertions, the retained observations are exactly the last
`max_history_length` inserted ones, in insertion order (the ticker's
history equals the inserted-observation list with its first
`n − max_history_length` entries dropped, so the oldest retained is the
`(n − max_history_length)`-th inserted, 0-based). -/
theorem history_fifo (max_len : ℕ) (inputs : List (ℚ × ℕ)) (hmax : 1 ≤ max_len) :
    (recordAll max_len inputs).length ≤ max_len ∧
    recordAll max_len inputs = (inputs.map mkObs).drop (inputs.length - max_len) := by
  have h := recordAll_eq_drop max_len hmax inputs
  refine ⟨?_, h⟩
  rw [h, List.length_drop, List.length_map]
  omega

/-- Counterexample to C5 as stated: with `max_history_length = 0` the
trim `history[-max_len:]` is the Python slice `[-0:]`, i.e. `[0:]`, a
no-op — so after one insertion the history has 1 > 0 entries and the cap
is exceeded. -/
theorem history_cap_fails_at_zero :
    ¬ ((recordAll 0 [((1 : ℚ), 0)]).length ≤ 0) := by decide

/-- Witness for amended C5: cap 2, three insertions — the retained
history is exactly the last two inserted observations, in order. -/
theorem history_fifo_witness :
    (recordAll 2 [((1 : ℚ), 0), ((2 : ℚ), 1), ((3 : ℚ), 2)]).length ≤ 2 ∧
    recordAll 2 [((1 : ℚ), 0), ((2 : ℚ), 1), ((3 : ℚ), 2)] = [⟨2, 1⟩, ⟨3, 2⟩] := by
  have h := history_fifo 2 [((1 : ℚ), 0), ((2 : ℚ), 1), ((3 : ℚ), 2)] (by decide)
  exact ⟨h.1, by rw [h.2]; decide⟩

/-! ### Configuration merge (C2) -/

/-- Looking up after a CPython dict assignment: the assigned key maps to
the new value; every other key is unchanged. -/
lemma lookup_dictSet (d : List (String × JVal)) (k kq : String) (v : JVal) :
    List.lookup kq (dictSet d k v) = if kq = k then some v else List.lookup kq d := by
  induction d with
  | nil =>
      cases h : (kq == k) with
      | true =>
          have he : kq = k := by simpa using h
          simp [dictSet, List.lookup_cons, h, he]
      | false =>
          have he : ¬ kq = k := by simpa using h
          simp [dictSet, List.lookup_cons, h, he]
  | cons p d ih =>
      obtain ⟨pk, pv⟩ := p
      by_cases hpk : pk = k
      · subst hpk
        cases h : (kq == pk) with
        | true =>
            have he : kq = pk := by simpa using h
            simp [dictSet, List.lookup_cons, h, he]
        | false =>
            have he : ¬ kq = pk := by simpa using h
            simp [dictSet, List.lookup_cons, h, he]
      · cases hp : (kq == pk) with
        | true =>
            have he : kq = pk := by simpa using hp
            have hk : ¬ kq = k := by rw [he]; exact hpk
            simp [dictSet, hpk, List.lookup_cons, hp, hk]
        | false =>
            have he : ¬ kq = pk := by simpa using hp
            simp [dictSet, hpk, List.lookup_cons, hp, ih]

/-- A key absent from the overriding dict is untouched by `dict.update`. -/
lemma lookup_dictUpdate_of_absent (e : List (String × JVal)) :
    ∀ (d : List (String × JVal)) (k : String), List.lookup k e = none →
      List.lookup k (dictUpdate d e) = List.lookup k d := by
  induction e with
  | nil => intro d k _; rfl
  | cons p e ih =>
      intro d k h
      have h1 : (k == p.1) = false ∧ List.lookup k e = none := by
        rw [List.lookup_cons] at h
        cases hp : (k == p.1) with
        | true => rw [hp] at h; exact Option.noConfusion h
        | false => rw [hp] at h; exact ⟨rfl, h⟩
      show List.lookup k (dictUpdate (dictSet d p.1 p.2) e) = List.lookup k d
      rw [ih (dictSet d p.1 p.2) k h1.2, lookup_dictSet]
      have hk : ¬ k = p.1 := by simpa using h1.1
      rw [if_neg hk]

/-- A key present in the overriding dict (whose keys are unique, as in
any Python dict) gets exactly its overriding value from `dict.update`. -/
lemma lookup_dictUpdate_of_present (e : List (String × JVal)) :
    ∀ (d : List (String × JVal)) (k : String) (v : JVal),
      (e.map Prod.fst).Nodup → List.lookup k e = some v →
      List.lookup k (dictUpdate d e) = some v := by
  induction e with
  | nil => intro d k v _ h; exact Option.noConfusion h
  | cons p e ih =>
      intro d k v hnd h
      rw [List.map_cons, List.nodup_cons] at hnd
      rw [List.lookup_cons] at h
      show List.lookup k (dictUpdate (dictSet d p.1 p.2) e) = some v
      cases hp : (k == p.1) with
      | true =>
          rw [hp] at h
          have he : k = p.1 := by simpa using hp
          have habs : List.lookup k e = none := by
            rw [List.lookup_eq_none_iff]
            intro q hq
            have : q.1 ∈ e.map Prod.fst := List.mem_map_of_mem Prod.fst hq
            simp only [bne_iff_ne, ne_eq]
            intro hkq
            exact hnd.1 (by rw [← he, hkq]; exact this)
          rw [lookup_dictUpdate_of_absent e (dictSet d p.1 p.2) k habs, lookup_dictSet,
              if_pos he]
          exact h
      | false =>
          rw [hp] at h
          exact ih (dictSet d p.1 p.2) k v hnd.2 h

/-- The configuration file of the C2 counterexample: it supplies only
the `drop_alert` sub-field inside `thresholds`. -/
def cfile : List (String × JVal) :=
  [("thresholds", JVal.obj [("drop_alert", JVal.num (-3))])]

/-- Counterexample to C2 as stated: the defaults give
`thresholds.surge_alert = 10`, but loading a file that supplies only
`thresholds.drop_alert` drops that nested default — line 59's
`default_config.update(loaded_config)` is a shallow map merge that
replaces the whole `thresholds` object. -/
theorem config_nested_default_dropped :
    thresholdField default_config "surge_alert" = some (JVal.num 10) ∧
    thresholdField (load_config (some cfile)) "surge_alert" = none := ⟨rfl, rfl⟩

/-- Amended C2: `load_config` merges the file over the defaults with a
shallow `dict.update`: every top-level field absent from the file keeps
its default value, and every top-level field present in the file
replaces the default value wholesale — so nested default sub-fields of a
replaced field are dropped rather than overlaid field-by-field. -/
theorem config_top_level_merge (file : List (String × JVal)) (k : String) :
    (List.lookup k file = none →
      List.lookup k (load_config (some file)) = List.lookup k default_config) ∧
    ((file.map Prod.fst).Nodup → ∀ v, List.lookup k file = some v →
      List.lookup k (load_config (some file)) = some v) := by
  constructor
  · intro h
    exact lookup_dictUpdate_of_absent file default_config k h
  · intro hnd v h
    exact lookup_dictUpdate_of_present file default_config k v hnd h

/-- Witness for amended C2: with the counterexample file, the absent
top-level field `check_interval` keeps its default, and the present
top-level field `thresholds` is replaced wholesale by the file's
value. -/
theorem config_top_level_merge_witness :
    List.lookup "check_interval" (load_config (some cfile))
      = List.lookup "check_interval" default_config ∧
    List.lookup "thresholds" (load_config (some cfile))
      = some (JVal.obj [("drop_alert", JVal.num (-3))]) := by
  constructor
  · exact (config_top_level_merge cfile "check_interval").1 rfl
  · exact (config_top_level_merge cfile "thresholds").2 (by simp [cfile]) _ rfl

end CryptoMonitor
